import Mathlib

/- Verification of the rotating append log writer and the synthetic log
   generator of the Go program (rotateLog, writeLog, generateLogs in
   app/main.go).  The filesystem is modelled as an assignment of paths to
   optional file contents; file sizes are UTF-8 byte counts, matching
   os.Stat's Size on the text the program writes. -/

/-- File contents: the byte string of the file, decoded as UTF-8 text. -/
abbrev Content := String

/-- A filesystem: each path maps to the content of the file there, if any. -/
abbrev FS := String → Option Content

/-- Model of os.Rename as the program uses it: when the source exists its
    content moves to the destination (overwriting whatever was there); when
    the source is missing the call fails, and since the program discards the
    error the filesystem is left unchanged. -/
def rename (fs : FS) (old new : String) : FS :=
  match fs old with
  | none => fs
  | some c => fun p => if p = new then some c else if p = old then none else fs p

/-- Little-endian decimal digits of a natural number, with explicit fuel
    (any fuel at least the number itself suffices). -/
def decDigitsAux : Nat → Nat → List Nat
  | 0, _ => []
  | _ + 1, 0 => []
  | fuel + 1, n + 1 => ((n + 1) % 10) :: decDigitsAux fuel ((n + 1) / 10)

/-- Little-endian decimal digits of a natural number (empty for zero). -/
def decDigits (n : Nat) : List Nat := decDigitsAux n n

/-- The character of a decimal (or lowercase hexadecimal) digit. -/
def digitChar (d : Nat) : Char :=
  if d < 10 then Char.ofNat (48 + d) else Char.ofNat (87 + d)

/-- Decimal numeral of a natural number, as printed by fmt's %d verb. -/
def decRepr (n : Nat) : String :=
  if n = 0 then "0" else String.mk ((decDigits n).reverse.map digitChar)

/-- Decimal numeral of an integer, as printed by encoding/json for int. -/
def intRepr (i : Int) : String :=
  if i < 0 then "-" ++ decRepr i.natAbs else decRepr i.toNat

/-- The path of the rotated file of index i: fmt.Sprintf("%s.%d", logFile, i). -/
def rotName (logFile : String) (i : Nat) : String := logFile ++ "." ++ decRepr i

/-- The rename cascade of rotateLog: the loop for i := maxFiles-1; i > 0; i--
    renaming logFile.i to logFile.(i+1).  The first argument tells, for each
    loop index i, whether the OS rename at that index fails for an external
    reason; a failed rename leaves the filesystem unchanged since the program
    discards the error.  The counter is the current loop index. -/
def shiftRotated (failAt : Nat → Bool) (logFile : String) : Nat → FS → FS
  | 0, fs => fs
  | n + 1, fs =>
    shiftRotated failAt logFile n
      (if failAt (n + 1) then fs
       else rename fs (rotName logFile (n + 1)) (rotName logFile (n + 2)))

/-- rotateLog from the source, with oracles for externally-caused rename
    failures (failAt for the loop renames, failFinal for the final rename of
    the active file to index 1).  Rotation is skipped when the active file is
    missing or below maxSize. -/
def rotateLogF (failAt : Nat → Bool) (failFinal : Bool) (logFile : String)
    (maxSize : Nat) (maxFiles : Int) (fs : FS) : FS :=
  match fs logFile with
  | none => fs
  | some c =>
    if c.utf8ByteSize < maxSize then fs
    else if failFinal then shiftRotated failAt logFile (maxFiles - 1).toNat fs
    else rename (shiftRotated failAt logFile (maxFiles - 1).toNat fs) logFile (rotName logFile 1)

/-- rotateLog in the run where every OS rename succeeds. -/
def rotateLog (logFile : String) (maxSize : Nat) (maxFiles : Int) (fs : FS) : FS :=
  rotateLogF (fun _ => false) false logFile maxSize maxFiles fs

/-- The LogEntry struct.  Absent fields of a Go struct literal hold the zero
    value of their type, which is the default here. -/
structure LogEntry where
  timestamp : String := ""
  level : String := ""
  service : String := ""
  message : String := ""
  user_id : String := ""
  endpoint : String := ""
  response_time_ms : Int := 0
  status_code : Int := 0
  region : String := ""
  component : String := ""
deriving DecidableEq

/-- encoding/json's escaping of one character inside a string literal, with
    the HTML escaping json.Marshal applies by default. -/
def escChar (c : Char) : List Char :=
  if c = '"' then ['\\', '"']
  else if c = '\\' then ['\\', '\\']
  else if c = '\n' then ['\\', 'n']
  else if c = '\r' then ['\\', 'r']
  else if c = '\t' then ['\\', 't']
  else if c.toNat < 32 ∨ c = '<' ∨ c = '>' ∨ c = '&' then
    ['\\', 'u', '0', '0', digitChar (c.toNat / 16), digitChar (c.toNat % 16)]
  else if c.toNat = 8232 ∨ c.toNat = 8233 then
    ['\\', 'u', '2', '0', '2', digitChar (c.toNat % 16)]
  else [c]

/-- encoding/json's escaping of a whole string. -/
def escapeString (s : String) : String := String.mk (s.data.flatMap escChar)

/-- A JSON string literal. -/
def quoteStr (s : String) : String := "\"" ++ escapeString s ++ "\""

/-- The key/value pairs json.Marshal emits for a LogEntry: struct field
    order, with every omitempty field dropped when it holds its zero value
    (empty string, zero integer). -/
def emittedFields (e : LogEntry) : List (String × String) :=
  [("timestamp", quoteStr e.timestamp), ("level", quoteStr e.level),
   ("service", quoteStr e.service), ("message", quoteStr e.message)]
  ++ (if e.user_id = "" then [] else [("user_id", quoteStr e.user_id)])
  ++ (if e.endpoint = "" then [] else [("endpoint", quoteStr e.endpoint)])
  ++ (if e.response_time_ms = 0 then [] else [("response_time_ms", intRepr e.response_time_ms)])
  ++ (if e.status_code = 0 then [] else [("status_code", intRepr e.status_code)])
  ++ (if e.region = "" then [] else [("region", quoteStr e.region)])
  ++ (if e.component = "" then [] else [("component", quoteStr e.component)])

/-- Rendering of one object member: quoted key, colon, rendered value. -/
def renderField (kv : String × String) : String := "\"" ++ kv.1 ++ "\":" ++ kv.2

/-- Comma-separated join of rendered members. -/
def joinComma : List String → String
  | [] => ""
  | [x] => x
  | x :: y :: xs => x ++ "," ++ joinComma (y :: xs)

/-- json.Marshal of a LogEntry: the members, comma-separated, in braces. -/
def marshalLogEntry (e : LogEntry) : String :=
  "\x7b" ++ joinComma ((emittedFields e).map renderField) ++ "\x7d"

/-- The bytes one writeLog call appends: the timestamp field is overwritten
    with the wall clock read inside writeLog, the entry is marshalled, and a
    newline is appended. -/
def serializeLine (now : String) (e : LogEntry) : String :=
  marshalLogEntry { e with timestamp := now } ++ "\n"

/-- Appending bytes to the file at a path, creating it when absent
    (the O_APPEND and O_CREATE flags of the program's os.OpenFile call). -/
def appendTo (fs : FS) (p : String) (s : String) : FS :=
  fun q => if q = p then some ((fs p).getD "" ++ s) else fs q

/-- Opening with O_CREATE creates an empty file when the path is absent. -/
def createIfAbsent (fs : FS) (p : String) : FS :=
  fun q => if q = p then some ((fs p).getD "") else fs q

/-- Outcome of one writeLog call: either log.Fatal terminated the process, or
    the call returned; both carry the filesystem left behind. -/
inductive WriteResult where
  | fatal (fs : FS)
  | ok (fs : FS)

/-- Whether the outcome was process termination. -/
def WriteResult.isFatal : WriteResult → Bool
  | .fatal _ => true
  | .ok _ => false

/-- writeLog from the source: rotate, open the active file for append
    (log.Fatal terminates the process when the open fails), set the
    timestamp, marshal, and write the line (the Write call's own error is
    discarded, so a failed write leaves the file as opened and the call
    still returns).  openOk and writeOk tell whether those OS calls
    succeed. -/
def writeLog (openOk writeOk : Bool) (failAt : Nat → Bool) (failFinal : Bool)
    (logFile : String) (maxSize : Nat) (maxFiles : Int)
    (now : String) (e : LogEntry) (fs : FS) : WriteResult :=
  let fs1 := rotateLogF failAt failFinal logFile maxSize maxFiles fs
  if openOk then
    let fs2 := createIfAbsent fs1 logFile
    if writeOk then .ok (appendTo fs2 logFile (serializeLine now e)) else .ok fs2
  else .fatal fs1

/-- The filesystem one writeLog call leaves when every OS call succeeds. -/
def writeLogFS (logFile : String) (maxSize : Nat) (maxFiles : Int)
    (now : String) (e : LogEntry) (fs : FS) : FS :=
  appendTo (rotateLog logFile maxSize maxFiles fs) logFile (serializeLine now e)

/-- An execution of the program's write pipeline: the filesystem after a
    sequence of writes, each paired with the wall clock read at its write.
    The main loop and generateLogs touch the filesystem only through
    writeLog, so a run of the program is such a sequence. -/
def runWrites (logFile : String) (maxSize : Nat) (maxFiles : Int) :
    List (String × LogEntry) → FS → FS
  | [], fs => fs
  | (now, e) :: rest, fs =>
    runWrites logFile maxSize maxFiles rest (writeLogFS logFile maxSize maxFiles now e fs)

/-- The users vocabulary. -/
def users : List String := ["user_001", "user_002", "user_003", "user_004", "user_005"]

/-- The endpoints vocabulary. -/
def endpoints : List String :=
  ["/api/login", "/api/users", "/api/orders", "/api/products", "/api/payments"]

/-- The regions vocabulary. -/
def regions : List String := ["us-east-1", "us-west-2", "eu-west-1", "ap-south-1"]

/-- The components vocabulary. -/
def components : List String :=
  ["auth-service", "user-service", "order-service", "payment-service", "notification-service"]

/-- The services vocabulary. -/
def services : List String := ["web-server", "api-gateway", "database", "cache", "queue"]

/-- The status-code pool of the API request log. -/
def statusCodes : List Int := [200, 201, 400, 401, 404, 500]

/-- The outcomes of the random draws one generateLogs call makes: the index
    draws rand.Intn yields, and the branch outcomes of the three
    rand.Float32 comparisons (errRoll for the 10% error branch, warnRoll for
    the 20% warning branch, debugRoll for the 30% debug branch). -/
structure GenChoices where
  userIdx : Fin 5
  endpointIdx : Fin 5
  respBase : Fin 500
  statusIdx : Fin 6
  regionA : Fin 4
  componentIdx : Fin 5
  serviceIdx : Fin 5
  errRoll : Bool
  warnRoll : Bool
  regionB : Fin 4
  debugRoll : Bool
  debugBase : Fin 100
  regionC : Fin 4

/-- The API-request entry generateLogs writes first: responseTime is
    rand.Intn(500) + 50, the status code is drawn from the pool. -/
def apiEntry (ch : GenChoices) : LogEntry :=
  { level := "INFO", service := "api-gateway", message := "API request processed",
    user_id := users.getD ch.userIdx.val "",
    endpoint := endpoints.getD ch.endpointIdx.val "",
    response_time_ms := (ch.respBase.val : Int) + 50,
    status_code := statusCodes.getD ch.statusIdx.val 0,
    region := regions.getD ch.regionA.val "" }

/-- The component-health entry generateLogs writes second: ERROR on the 10%
    branch, WARN on the 20% branch, INFO otherwise. -/
def healthEntry (ch : GenChoices) : LogEntry :=
  if ch.errRoll then
    { level := "ERROR", service := services.getD ch.serviceIdx.val "",
      message := components.getD ch.componentIdx.val "" ++ " encountered an error",
      component := components.getD ch.componentIdx.val "",
      region := regions.getD ch.regionB.val "" }
  else if ch.warnRoll then
    { level := "WARN", service := services.getD ch.serviceIdx.val "",
      message := components.getD ch.componentIdx.val "" ++ " performance degraded",
      component := components.getD ch.componentIdx.val "",
      region := regions.getD ch.regionB.val "" }
  else
    { level := "INFO", service := services.getD ch.serviceIdx.val "",
      message := components.getD ch.componentIdx.val "" ++ " operating normally",
      component := components.getD ch.componentIdx.val "",
      region := regions.getD ch.regionB.val "" }

/-- The occasional debug entry (the 30% branch): batch size rand.Intn(100)+1. -/
def debugEntry (ch : GenChoices) : LogEntry :=
  { level := "DEBUG", service := "debug-service",
    message := "Processing batch of " ++ decRepr (ch.debugBase.val + 1) ++ " items",
    region := regions.getD ch.regionC.val "" }

/-- generateLogs: the entries one tick passes to writeLog, in order. -/
def generateLogs (ch : GenChoices) : List LogEntry :=
  [apiEntry ch, healthEntry ch] ++ (if ch.debugRoll then [debugEntry ch] else [])

/-- Value of a little-endian digit list. -/
def decVal : List Nat → Nat
  | [] => 0
  | d :: ds => d + 10 * decVal ds

theorem decVal_decDigitsAux : ∀ fuel n, n ≤ fuel → decVal (decDigitsAux fuel n) = n := by
  intro fuel
  induction fuel with
  | zero => intro n h; interval_cases n; rfl
  | succ f ih =>
    intro n h
    cases n with
    | zero => rfl
    | succ m =>
      have hdiv : (m + 1) / 10 ≤ f := by
        have := Nat.div_lt_self (Nat.succ_pos m) (by norm_num : 1 < 10)
        omega
      simp only [decDigitsAux, decVal, ih _ hdiv]
      omega

theorem decVal_decDigits (n : Nat) : decVal (decDigits n) = n :=
  decVal_decDigitsAux n n (Nat.le_refl n)

theorem decDigitsAux_lt : ∀ fuel n, ∀ d ∈ decDigitsAux fuel n, d < 10 := by
  intro fuel
  induction fuel with
  | zero => intro n d hd; simp [decDigitsAux] at hd
  | succ f ih =>
    intro n d hd
    cases n with
    | zero => simp [decDigitsAux] at hd
    | succ m =>
      simp only [decDigitsAux, List.mem_cons] at hd
      rcases hd with h | h
      · subst h; exact Nat.mod_lt _ (by norm_num)
      · exact ih _ _ h

theorem decDigits_lt (n : Nat) : ∀ d ∈ decDigits n, d < 10 :=
  decDigitsAux_lt n n

theorem digitChar_inj_lt : ∀ d₁, d₁ < 10 → ∀ d₂, d₂ < 10 → digitChar d₁ = digitChar d₂ → d₁ = d₂ := by
  decide

theorem map_digitChar_inj : ∀ l₁ l₂ : List Nat, (∀ d ∈ l₁, d < 10) → (∀ d ∈ l₂, d < 10) →
    l₁.map digitChar = l₂.map digitChar → l₁ = l₂ := by
  intro l₁
  induction l₁ with
  | nil => intro l₂ _ _ h; cases l₂ <;> simp_all
  | cons a l ih =>
    intro l₂ h₁ h₂ h
    cases l₂ with
    | nil => simp at h
    | cons b l' =>
      simp only [List.map_cons, List.cons.injEq] at h
      have ha : a = b := digitChar_inj_lt a (h₁ a (by simp)) b (h₂ b (by simp)) h.1
      have hl : l = l' := ih l' (fun d hd => h₁ d (by simp [hd])) (fun d hd => h₂ d (by simp [hd])) h.2
      rw [ha, hl]

theorem decRepr_inj {m n : Nat} (h : decRepr m = decRepr n) : m = n := by
  by_cases hm : m = 0 <;> by_cases hn : n = 0
  · omega
  · exfalso
    rw [decRepr, decRepr, if_pos hm, if_neg hn] at h
    have hdata : ['0'] = (decDigits n).reverse.map digitChar := congrArg String.data h
    have : ([0] : List Nat) = (decDigits n).reverse := by
      apply map_digitChar_inj
      · simp
      · intro d hd; exact decDigits_lt n d (List.mem_reverse.mp hd)
      · simpa [digitChar] using hdata
    have hrev : decDigits n = [0] := by
      have := congrArg List.reverse this
      simpa using this.symm
    have := decVal_decDigits n
    rw [hrev] at this
    simp [decVal] at this
    omega
  · exfalso
    rw [decRepr, decRepr, if_neg hm, if_pos hn] at h
    have hdata : (decDigits m).reverse.map digitChar = ['0'] := congrArg String.data h
    have : (decDigits m).reverse = ([0] : List Nat) := by
      apply map_digitChar_inj
      · intro d hd; exact decDigits_lt m d (List.mem_reverse.mp hd)
      · simp
      · simpa [digitChar] using hdata
    have hrev : decDigits m = [0] := by
      have h2 := congrArg List.reverse this
      simpa using h2
    have := decVal_decDigits m
    rw [hrev] at this
    simp [decVal] at this
    omega
  · rw [decRepr, decRepr, if_neg hm, if_neg hn] at h
    have hdata := congrArg String.data h
    simp only at hdata
    have : (decDigits m).reverse = (decDigits n).reverse := by
      apply map_digitChar_inj
      · intro d hd; exact decDigits_lt m d (List.mem_reverse.mp hd)
      · intro d hd; exact decDigits_lt n d (List.mem_reverse.mp hd)
      · exact hdata
    have hdig : decDigits m = decDigits n := List.reverse_injective this
    have := decVal_decDigits m
    rw [hdig, decVal_decDigits n] at this
    omega

theorem rotName_ne_self (s : String) (i : Nat) : rotName s i ≠ s := by
  intro h
  have hlen := congrArg String.length h
  rw [rotName, String.length_append, String.length_append] at hlen
  have hdot : ("." : String).length = 1 := rfl
  omega

theorem rotName_inj {s : String} {i j : Nat} (h : rotName s i = rotName s j) : i = j := by
  rw [rotName, rotName] at h
  have hdata := congrArg String.data h
  simp only [String.data_append, List.append_assoc] at hdata
  have h3 : ("." : String).data ++ (decRepr i).data = ("." : String).data ++ (decRepr j).data :=
    List.append_cancel_left hdata
  have h2 : (decRepr i).data = (decRepr j).data := List.append_cancel_left h3
  exact decRepr_inj (String.ext h2)

theorem rename_frame (fs : FS) (old new p : String) (hpn : p ≠ new) (hpo : p ≠ old) :
    rename fs old new p = fs p := by
  unfold rename
  cases hsrc : fs old with
  | none => rfl
  | some c => simp [hpn, hpo]

theorem rename_target (fs : FS) {old : String} (new : String) {c : Content}
    (h : fs old = some c) : rename fs old new new = some c := by
  unfold rename
  rw [h]
  simp

theorem rename_source (fs : FS) {old new : String} {c : Content}
    (h : fs old = some c) (hne : old ≠ new) : rename fs old new old = none := by
  unfold rename
  rw [h]
  simp [hne]

theorem rename_missing (fs : FS) {old : String} (new : String) (h : fs old = none) :
    rename fs old new = fs := by
  unfold rename
  rw [h]

theorem rename_content (fs : FS) (old new p : String) {c : Content}
    (h : rename fs old new p = some c) : ∃ q, fs q = some c := by
  unfold rename at h
  cases hsrc : fs old with
  | none => rw [hsrc] at h; exact ⟨p, h⟩
  | some c0 =>
    rw [hsrc] at h
    simp only at h
    by_cases h1 : p = new
    · rw [if_pos h1] at h
      exact ⟨old, by rw [hsrc]; exact congrArg some (Option.some.inj h)⟩
    · rw [if_neg h1] at h
      by_cases h2 : p = old
      · rw [if_pos h2] at h; cases h
      · rw [if_neg h2] at h; exact ⟨p, h⟩

theorem shiftRotated_frame (failAt : Nat → Bool) (lf : String) :
    ∀ (n : Nat) (fs : FS) (p : String),
      (∀ k, 1 ≤ k → k ≤ n + 1 → p ≠ rotName lf k) →
      shiftRotated failAt lf n fs p = fs p := by
  intro n
  induction n with
  | zero => intro fs p _; rfl
  | succ m ih =>
    intro fs p hp
    rw [shiftRotated]
    rw [ih _ p (fun k h1 h2 => hp k h1 (by omega))]
    by_cases hf : failAt (m + 1)
    · rw [if_pos hf]
    · rw [if_neg hf]
      exact rename_frame fs _ _ p (hp (m + 2) (by omega) (by omega)) (hp (m + 1) (by omega) (by omega))

theorem shiftRotated_content (failAt : Nat → Bool) (lf : String) :
    ∀ (n : Nat) (fs : FS) (p : String) (c : Content),
      shiftRotated failAt lf n fs p = some c → ∃ q, fs q = some c := by
  intro n
  induction n with
  | zero => intro fs p c h; exact ⟨p, h⟩
  | succ m ih =>
    intro fs p c h
    rw [shiftRotated] at h
    rcases ih _ p c h with ⟨q, hq⟩
    by_cases hf : failAt (m + 1)
    · rw [if_pos hf] at hq; exact ⟨q, hq⟩
    · rw [if_neg hf] at hq
      exact rename_content fs _ _ q hq

theorem shiftRotated_succ_ok (lf : String) (m : Nat) (fs : FS) :
    shiftRotated (fun _ => false) lf (m + 1) fs
      = shiftRotated (fun _ => false) lf m (rename fs (rotName lf (m + 1)) (rotName lf (m + 2))) := by
  rw [shiftRotated]
  simp

theorem shiftRotated_shifts (lf : String) :
    ∀ (n : Nat) (fs : FS),
      (∀ k, 1 ≤ k → k ≤ n → (fs (rotName lf k)).isSome) →
      (∀ k, 2 ≤ k → k ≤ n + 1 →
        shiftRotated (fun _ => false) lf n fs (rotName lf k) = fs (rotName lf (k - 1)))
      ∧ (1 ≤ n → shiftRotated (fun _ => false) lf n fs (rotName lf 1) = none) := by
  intro n
  induction n with
  | zero =>
    intro fs _
    refine ⟨fun k h2 h1 => by omega, fun h => by omega⟩
  | succ m ih =>
    intro fs hpres
    obtain ⟨c0, hc0⟩ : ∃ c0, fs (rotName lf (m + 1)) = some c0 :=
      Option.isSome_iff_exists.mp (hpres (m + 1) (by omega) (by omega))
    have hfs1_at : ∀ k, k ≤ m →
        rename fs (rotName lf (m + 1)) (rotName lf (m + 2)) (rotName lf k) = fs (rotName lf k) := by
      intro k hk
      apply rename_frame
      · intro h; have := rotName_inj h; omega
      · intro h; have := rotName_inj h; omega
    have hpres1 : ∀ k, 1 ≤ k → k ≤ m →
        ((rename fs (rotName lf (m + 1)) (rotName lf (m + 2))) (rotName lf k)).isSome := by
      intro k h1 h2
      rw [hfs1_at k h2]
      exact hpres k h1 (by omega)
    rcases ih (rename fs (rotName lf (m + 1)) (rotName lf (m + 2))) hpres1 with ⟨iha, ihb⟩
    constructor
    · intro k h2 hk
      rw [shiftRotated_succ_ok]
      by_cases hktop : k = m + 2
      · subst hktop
        rw [shiftRotated_frame]
        · show rename fs (rotName lf (m + 1)) (rotName lf (m + 2)) (rotName lf (m + 2))
            = fs (rotName lf (m + 2 - 1))
          rw [rename_target fs (rotName lf (m + 2)) hc0]
          show some c0 = fs (rotName lf (m + 1))
          exact hc0.symm
        · intro j h1 hj h
          have := rotName_inj h
          omega
      · have hk' : k ≤ m + 1 := by omega
        rw [iha k h2 hk']
        exact hfs1_at (k - 1) (by omega)
    · intro _
      rw [shiftRotated_succ_ok]
      cases m with
      | zero =>
        show rename fs (rotName lf 1) (rotName lf 2) (rotName lf 1) = none
        apply rename_source fs hc0
        intro h
        have := rotName_inj h
        omega
      | succ m' => exact ihb (by omega)

theorem rotateLogF_missing (failAt : Nat → Bool) (failFinal : Bool) (lf : String)
    (ms : Nat) (mf : Int) (fs : FS) (h : fs lf = none) :
    rotateLogF failAt failFinal lf ms mf fs = fs := by
  unfold rotateLogF
  rw [h]

theorem rotateLogF_small (failAt : Nat → Bool) (failFinal : Bool) (lf : String)
    (ms : Nat) (mf : Int) (fs : FS) (c : Content)
    (h : fs lf = some c) (hsz : c.utf8ByteSize < ms) :
    rotateLogF failAt failFinal lf ms mf fs = fs := by
  unfold rotateLogF
  rw [h]
  simp [hsz]

theorem rotateLogF_big (failAt : Nat → Bool) (failFinal : Bool) (lf : String)
    (ms : Nat) (mf : Int) (fs : FS) (c : Content)
    (h : fs lf = some c) (hsz : ms ≤ c.utf8ByteSize) :
    rotateLogF failAt failFinal lf ms mf fs
      = (if failFinal then shiftRotated failAt lf (mf - 1).toNat fs
         else rename (shiftRotated failAt lf (mf - 1).toNat fs) lf (rotName lf 1)) := by
  unfold rotateLogF
  rw [h]
  have hlt : ¬ (c.utf8ByteSize < ms) := Nat.not_lt.mpr hsz
  simp only [hlt, if_false]

theorem rotateLog_run (lf : String) (ms : Nat) (mf : Int) (fs : FS) (c : Content)
    (h : fs lf = some c) (hsz : ms ≤ c.utf8ByteSize) :
    rotateLog lf ms mf fs
      = rename (shiftRotated (fun _ => false) lf (mf - 1).toNat fs) lf (rotName lf 1) := by
  unfold rotateLog
  rw [rotateLogF_big _ _ lf ms mf fs c h hsz]
  simp

theorem shiftRotated_keeps_active (failAt : Nat → Bool) (lf : String) (n : Nat) (fs : FS) :
    shiftRotated failAt lf n fs lf = fs lf :=
  shiftRotated_frame failAt lf n fs lf (fun k _ _ => (rotName_ne_self lf k).symm)

theorem writeLog_big_effects (lf : String) (ms : Nat) (mf : Int)
    (now : String) (e : LogEntry) (fs : FS) (c : Content)
    (h : fs lf = some c) (hsz : ms ≤ c.utf8ByteSize) :
    writeLogFS lf ms mf now e fs
      = appendTo (rotateLog lf ms mf fs) lf (serializeLine now e)
    ∧ rotateLog lf ms mf fs (rotName lf 1) = some c
    ∧ rotateLog lf ms mf fs lf = none
    ∧ writeLogFS lf ms mf now e fs (rotName lf 1) = some c := by
  have hrun := rotateLog_run lf ms mf fs c h hsz
  have hkeep : shiftRotated (fun _ => false) lf (mf - 1).toNat fs lf = some c := by
    rw [shiftRotated_keeps_active]
    exact h
  have hone : rotateLog lf ms mf fs (rotName lf 1) = some c := by
    rw [hrun]
    exact rename_target _ _ hkeep
  refine ⟨rfl, hone, ?_, ?_⟩
  · rw [hrun]
    exact rename_source _ hkeep (rotName_ne_self lf 1).symm
  · show appendTo (rotateLog lf ms mf fs) lf (serializeLine now e) (rotName lf 1) = some c
    unfold appendTo
    rw [if_neg (rotName_ne_self lf 1)]
    exact hone

/-- C1: a call to write rotates if and only if the active file exists with
    size at least the threshold; on the skip cases rotation is the identity
    and the record is appended to the untouched filesystem, and when rotation
    runs, the write appends to the once-rotated filesystem, which holds the
    previously active content at index 1 and no active file, and after the
    append the previous content is still at index 1. -/
theorem writeLog_rotation_iff_spec (lf : String) (ms : Nat) (mf : Int)
    (now : String) (e : LogEntry) (fs : FS) :
    (fs lf = none →
      rotateLog lf ms mf fs = fs ∧
      writeLogFS lf ms mf now e fs = appendTo fs lf (serializeLine now e))
    ∧ (∀ c : Content, fs lf = some c → c.utf8ByteSize < ms →
      rotateLog lf ms mf fs = fs ∧
      writeLogFS lf ms mf now e fs = appendTo fs lf (serializeLine now e))
    ∧ (∀ c : Content, fs lf = some c → ms ≤ c.utf8ByteSize →
      writeLogFS lf ms mf now e fs
        = appendTo (rotateLog lf ms mf fs) lf (serializeLine now e)
      ∧ rotateLog lf ms mf fs (rotName lf 1) = some c
      ∧ rotateLog lf ms mf fs lf = none
      ∧ writeLogFS lf ms mf now e fs (rotName lf 1) = some c) := by
  refine ⟨?_, ?_, ?_⟩
  · intro h
    have hrot : rotateLog lf ms mf fs = fs := rotateLogF_missing _ _ lf ms mf fs h
    exact ⟨hrot, by unfold writeLogFS; rw [hrot]⟩
  · intro c h hsz
    have hrot : rotateLog lf ms mf fs = fs := rotateLogF_small _ _ lf ms mf fs c h hsz
    exact ⟨hrot, by unfold writeLogFS; rw [hrot]⟩
  · intro c h hsz
    exact writeLog_big_effects lf ms mf now e fs c h hsz

/-- Witness for C1 at a concrete filesystem whose active file holds 100
    bytes against a 100-byte threshold. -/
theorem writeLog_rotation_iff_spec_witness :
    writeLogFS "app.log" 100 5 "T" {} (fun p =>
        if p = "app.log" then some (String.mk (List.replicate 100 'a')) else none)
      (rotName "app.log" 1) = some (String.mk (List.replicate 100 'a')) := by
  have h := writeLog_rotation_iff_spec "app.log" 100 5 "T" {} (fun p =>
    if p = "app.log" then some (String.mk (List.replicate 100 'a')) else none)
  exact (h.2.2 _ (by decide) (by decide)).2.2.2

theorem rotateLog_shift_core (lf : String) (ms : Nat) (mf : Int) (fs : FS)
    (c : Nat → Content) (a : Content)
    (hmf : 1 ≤ mf)
    (hact : fs lf = some a)
    (hbig : ms ≤ a.utf8ByteSize)
    (hrot : ∀ k, 1 ≤ k → k ≤ mf.toNat → fs (rotName lf k) = some (c k)) :
    (∀ k, 2 ≤ k → k ≤ mf.toNat →
        rotateLog lf ms mf fs (rotName lf k) = some (c (k - 1)))
    ∧ rotateLog lf ms mf fs (rotName lf 1) = some a
    ∧ rotateLog lf ms mf fs lf = none := by
  rw [rotateLog_run lf ms mf fs a hact hbig]
  have hn1 : (mf - 1).toNat + 1 = mf.toNat := by omega
  have hpres : ∀ k, 1 ≤ k → k ≤ (mf - 1).toNat → (fs (rotName lf k)).isSome := by
    intro k h1 h2
    rw [hrot k h1 (by omega)]
    rfl
  rcases shiftRotated_shifts lf ((mf - 1).toNat) fs hpres with ⟨ha, hb⟩
  have hkeep : shiftRotated (fun _ => false) lf (mf - 1).toNat fs lf = some a := by
    rw [shiftRotated_keeps_active]
    exact hact
  refine ⟨?_, ?_, ?_⟩
  · intro k h2 hk
    rw [rename_frame _ _ _ _ (fun h => by have := rotName_inj h; omega) (rotName_ne_self lf k)]
    rw [ha k h2 (by omega)]
    exact hrot (k - 1) (by omega) (by omega)
  · exact rename_target _ _ hkeep
  · exact rename_source _ hkeep (rotName_ne_self lf 1).symm

/-- C2: with retention at least 1 and rotated files present at every index
    1..maxFiles, rotation moves each index k to k+1 (top-down, so the content
    at the highest index is overwritten and lost), then moves the active file
    to index 1 and leaves no active file. -/
theorem rotateLog_shift_spec (lf : String) (ms : Nat) (mf : Int) (fs : FS)
    (c : Nat → Content) (a : Content)
    (hmf : 1 ≤ mf)
    (hact : fs lf = some a)
    (hbig : ms ≤ a.utf8ByteSize)
    (hrot : ∀ k, 1 ≤ k → k ≤ mf.toNat → fs (rotName lf k) = some (c k)) :
    (∀ k, 2 ≤ k → k ≤ mf.toNat →
        rotateLog lf ms mf fs (rotName lf k) = some (c (k - 1)))
    ∧ rotateLog lf ms mf fs (rotName lf 1) = some a
    ∧ rotateLog lf ms mf fs lf = none :=
  rotateLog_shift_core lf ms mf fs c a hmf hact hbig hrot

/-- Witness for C2: the concrete retention-2 scenario, where the old content
    of index 2 is overwritten by the old content of index 1, index 1 receives
    the active content, and the active path is vacated. -/
theorem rotateLog_shift_spec_witness :
    (rotateLog "app.log" 100 2 (fun p =>
        if p = "app.log" then some (String.mk (List.replicate 100 'a'))
        else if p = rotName "app.log" 1 then some "one"
        else if p = rotName "app.log" 2 then some "two"
        else none)) (rotName "app.log" 2) = some "one"
    ∧ (rotateLog "app.log" 100 2 (fun p =>
        if p = "app.log" then some (String.mk (List.replicate 100 'a'))
        else if p = rotName "app.log" 1 then some "one"
        else if p = rotName "app.log" 2 then some "two"
        else none)) (rotName "app.log" 1) = some (String.mk (List.replicate 100 'a'))
    ∧ (rotateLog "app.log" 100 2 (fun p =>
        if p = "app.log" then some (String.mk (List.replicate 100 'a'))
        else if p = rotName "app.log" 1 then some "one"
        else if p = rotName "app.log" 2 then some "two"
        else none)) "app.log" = none := by
  have h := rotateLog_shift_spec "app.log" 100 2 (fun p =>
        if p = "app.log" then some (String.mk (List.replicate 100 'a'))
        else if p = rotName "app.log" 1 then some "one"
        else if p = rotName "app.log" 2 then some "two"
        else none)
    (fun k => if k = 1 then "one" else "two") (String.mk (List.replicate 100 'a'))
    (by decide) (by decide) (by decide)
    (by
      intro k h1 h2
      have h2' : k ≤ 2 := by omega
      interval_cases k <;> decide)
  exact ⟨h.1 2 (by decide) (by decide), h.2.1, h.2.2⟩

/-- C3: with a 100-byte threshold, a 150-byte active file and no rotated
    files, one write leaves the prior content at index 1 and the active file
    holding exactly the one serialized record. -/
theorem writeLog_scenario_150 (lf now : String) (mf : Int) (e : LogEntry) (fs : FS)
    (c : Content)
    (hact : fs lf = some c)
    (hsz : c.utf8ByteSize = 150)
    (hrot : ∀ k, 1 ≤ k → fs (rotName lf k) = none) :
    writeLogFS lf 100 mf now e fs (rotName lf 1) = some c
    ∧ writeLogFS lf 100 mf now e fs lf = some (serializeLine now e) := by
  have hbig : 100 ≤ c.utf8ByteSize := by omega
  rcases writeLog_big_effects lf 100 mf now e fs c hact hbig with ⟨hw, hone, hnone, hafter⟩
  refine ⟨hafter, ?_⟩
  rw [hw]
  unfold appendTo
  rw [if_pos rfl, hnone]
  show some ("" ++ serializeLine now e) = some (serializeLine now e)
  rw [String.empty_append]

set_option maxRecDepth 4000 in
/-- Witness for C3 at a concrete 150-byte file. -/
theorem writeLog_scenario_150_witness :
    writeLogFS "app.log" 100 5 "T" {} (fun p =>
        if p = "app.log" then some (String.mk (List.replicate 150 'b')) else none)
      (rotName "app.log" 1) = some (String.mk (List.replicate 150 'b')) := by
  have h := writeLog_scenario_150 "app.log" "T" 5 {} (fun p =>
      if p = "app.log" then some (String.mk (List.replicate 150 'b')) else none)
    (String.mk (List.replicate 150 'b'))
    (by decide) (by decide)
    (by
      intro k h1
      show (if rotName "app.log" k = "app.log" then
        some (String.mk (List.replicate 150 'b')) else none) = none
      rw [if_neg (rotName_ne_self "app.log" k)])
  exact h.1

/-- C7: with a zero or negative retained-file count the cascade is empty and
    rotation is exactly the single rename of the active file onto index 1,
    which therefore perpetually overwrites index 1. -/
theorem rotateLog_nonpos_retention (lf : String) (ms : Nat) (mf : Int) (fs : FS)
    (c : Content)
    (hmf : mf ≤ 0)
    (hact : fs lf = some c)
    (hbig : ms ≤ c.utf8ByteSize) :
    rotateLog lf ms mf fs = rename fs lf (rotName lf 1)
    ∧ rotateLog lf ms mf fs (rotName lf 1) = some c := by
  have h0 : (mf - 1).toNat = 0 := by omega
  rw [rotateLog_run lf ms mf fs c hact hbig, h0]
  exact ⟨rfl, rename_target fs _ hact⟩

/-- Witness for C7 at retention 0: index 1 is overwritten with the active
    content even though a rotated file was already there. -/
theorem rotateLog_nonpos_retention_witness :
    rotateLog "app.log" 100 0 (fun p =>
        if p = "app.log" then some (String.mk (List.replicate 100 'a'))
        else if p = rotName "app.log" 1 then some "stale"
        else none)
      (rotName "app.log" 1) = some (String.mk (List.replicate 100 'a')) := by
  have h := rotateLog_nonpos_retention "app.log" 100 0 (fun p =>
        if p = "app.log" then some (String.mk (List.replicate 100 'a'))
        else if p = rotName "app.log" 1 then some "stale"
        else none)
    (String.mk (List.replicate 100 'a'))
    (by decide) (by decide) (by decide)
  exact h.2

theorem utf8ByteSize_append (a b : String) :
    (a ++ b).utf8ByteSize = a.utf8ByteSize + b.utf8ByteSize := by
  cases a with | mk l1 => cases b with | mk l2 =>
  show (String.mk (l1 ++ l2)).utf8ByteSize = _
  simp [String.utf8ByteSize_mk, String.utf8Len_append]

/-- The filesystem in which every file holds its own path as content, used
    to exhibit that rotation can change each path in its range. -/
def selfNamed : FS := fun p => some p

/-- C10: rotation only renames.  Whatever renames fail, every path other
    than the active path and the rotated paths 1..maxFiles is untouched, and
    every content present after rotation was already present at some path
    before; moreover each path in that range really can be changed by a
    rotation, witnessed on the filesystem where every file holds its own
    name. -/
theorem rotateLog_affects_exactly (failAt : Nat → Bool) (failFinal : Bool)
    (lf : String) (ms : Nat) (mf : Int) (fs : FS) (hmf : 1 ≤ mf) :
    (∀ p, p ≠ lf → (∀ k, 1 ≤ k → k ≤ mf.toNat → p ≠ rotName lf k) →
        rotateLogF failAt failFinal lf ms mf fs p = fs p)
    ∧ (∀ p c, rotateLogF failAt failFinal lf ms mf fs p = some c → ∃ q, fs q = some c)
    ∧ (∀ k, 1 ≤ k → k ≤ mf.toNat →
        rotateLog lf 0 mf selfNamed (rotName lf k) ≠ selfNamed (rotName lf k))
    ∧ rotateLog lf 0 mf selfNamed lf ≠ selfNamed lf := by
  have htop : (mf - 1).toNat + 1 = mf.toNat := by omega
  refine ⟨?_, ?_, ?_, ?_⟩
  · intro p hplf hprot
    cases hsrc : fs lf with
    | none => rw [rotateLogF_missing _ _ lf ms mf fs hsrc]
    | some c =>
      by_cases hsz : c.utf8ByteSize < ms
      · rw [rotateLogF_small _ _ lf ms mf fs c hsrc hsz]
      · rw [rotateLogF_big _ _ lf ms mf fs c hsrc (Nat.not_lt.mp hsz)]
        have hsh : shiftRotated failAt lf (mf - 1).toNat fs p = fs p :=
          shiftRotated_frame failAt lf _ fs p (fun k h1 h2 => hprot k h1 (by omega))
        by_cases hff : failFinal
        · rw [if_pos hff]
          exact hsh
        · rw [if_neg hff]
          rw [rename_frame _ _ _ _ (hprot 1 (by omega) (by omega)) hplf]
          exact hsh
  · intro p c hpc
    cases hsrc : fs lf with
    | none => rw [rotateLogF_missing _ _ lf ms mf fs hsrc] at hpc; exact ⟨p, hpc⟩
    | some c0 =>
      by_cases hsz : c0.utf8ByteSize < ms
      · rw [rotateLogF_small _ _ lf ms mf fs c0 hsrc hsz] at hpc; exact ⟨p, hpc⟩
      · rw [rotateLogF_big _ _ lf ms mf fs c0 hsrc (Nat.not_lt.mp hsz)] at hpc
        by_cases hff : failFinal
        · rw [if_pos hff] at hpc
          exact shiftRotated_content failAt lf _ fs p c hpc
        · rw [if_neg hff] at hpc
          rcases rename_content _ _ _ p hpc with ⟨q, hq⟩
          exact shiftRotated_content failAt lf _ fs q c hq
  · intro k h1 hk
    have h := rotateLog_shift_core lf 0 mf selfNamed (fun j => rotName lf j) lf
      hmf rfl (Nat.zero_le _) (fun j _ _ => rfl)
    by_cases hk1 : k = 1
    · subst hk1
      rw [h.2.1]
      intro heq
      exact rotName_ne_self lf 1 (Option.some.inj heq).symm
    · rw [h.1 k (by omega) hk]
      intro heq
      have := rotName_inj (Option.some.inj heq)
      omega
  · have h := rotateLog_shift_core lf 0 mf selfNamed (fun j => rotName lf j) lf
      hmf rfl (Nat.zero_le _) (fun j _ _ => rfl)
    rw [h.2.2]
    intro heq
    cases heq

/-- Witness for C10: a path that is neither the active file nor a rotated
    index is untouched by a rotation at retention 5. -/
theorem rotateLog_affects_exactly_witness :
    rotateLogF (fun _ => false) false "app.log" 100 5 (fun p =>
        if p = "app.log" then some (String.mk (List.replicate 100 'a'))
        else some "bystander") "other.log"
      = some "bystander" := by
  have h := rotateLog_affects_exactly (fun _ => false) false "app.log" 100 5
    (fun p => if p = "app.log" then some (String.mk (List.replicate 100 'a'))
      else some "bystander")
    (by decide)
  rw [h.1 "other.log" (by decide) (by
    intro k h1 h2
    have h2' : k ≤ 5 := by omega
    interval_cases k <;> decide)]
  decide

/-- C8: only a write can trigger rotation evaluation: an execution that
    writes no records leaves the filesystem untouched, so whatever the size
    of the active file, a rotated path absent before is absent after. -/
theorem no_writes_no_rotation (lf : String) (ms : Nat) (mf : Int) (fs : FS) (k : Nat)
    (hnone : fs (rotName lf k) = none) :
    runWrites lf ms mf [] fs = fs
    ∧ runWrites lf ms mf [] fs (rotName lf k) = none :=
  ⟨rfl, hnone⟩

/-- Witness for C8 with an oversized active file and no writes. -/
theorem no_writes_no_rotation_witness :
    runWrites "app.log" 100 5 [] (fun p =>
        if p = "app.log" then some (String.mk (List.replicate 150 'b')) else none)
      (rotName "app.log" 1) = none := by
  have h := no_writes_no_rotation "app.log" 100 5 (fun p =>
      if p = "app.log" then some (String.mk (List.replicate 150 'b')) else none)
    1 (by decide)
  exact h.2

theorem shiftRotated_allFail (lf : String) : ∀ (n : Nat) (fs : FS),
    shiftRotated (fun _ => true) lf n fs = fs := by
  intro n
  induction n with
  | zero => intro fs; rfl
  | succ m ih =>
    intro fs
    rw [shiftRotated]
    simp only [if_pos]
    exact ih fs

theorem rotateLogF_allFail (lf : String) (ms : Nat) (mf : Int) (fs : FS) :
    rotateLogF (fun _ => true) true lf ms mf fs = fs := by
  cases hsrc : fs lf with
  | none => exact rotateLogF_missing _ _ lf ms mf fs hsrc
  | some c =>
    by_cases hsz : c.utf8ByteSize < ms
    · exact rotateLogF_small _ _ lf ms mf fs c hsrc hsz
    · rw [rotateLogF_big _ _ lf ms mf fs c hsrc (Nat.not_lt.mp hsz)]
      simp only [if_pos]
      exact shiftRotated_allFail lf _ fs

/-- C4 counterexample: a failing write is not fatal.  With the open
    succeeding and the OS write failing, writeLog still returns (outcome ok,
    not fatal), refuting the claim that a failure to write the active file
    terminates the process. -/
theorem writeLog_write_failure_not_fatal :
    (writeLog true false (fun _ => false) false "app.log" 100 5 "T" {}
      (fun _ => none)).isFatal = false := rfl

/-- C4 amended: failure to open the active file is fatal, with no retry and
    no append (the filesystem is exactly what rotation left); every rename
    failure during rotation is silently ignored and the record is still
    appended; a failure of the write call itself is silently ignored rather
    than fatal (the opened file is left unwritten); and when every rename
    fails, the oversized active file just keeps growing past the
    threshold. -/
theorem writeLog_error_policy (failAt : Nat → Bool) (failFinal : Bool)
    (lf : String) (ms : Nat) (mf : Int) (now : String) (e : LogEntry) (fs : FS) :
    (writeLog false true failAt failFinal lf ms mf now e fs
      = WriteResult.fatal (rotateLogF failAt failFinal lf ms mf fs))
    ∧ (writeLog true true failAt failFinal lf ms mf now e fs
      = WriteResult.ok (appendTo (createIfAbsent (rotateLogF failAt failFinal lf ms mf fs) lf) lf
          (serializeLine now e)))
    ∧ (writeLog true false failAt failFinal lf ms mf now e fs
      = WriteResult.ok (createIfAbsent (rotateLogF failAt failFinal lf ms mf fs) lf))
    ∧ (∀ c : Content, fs lf = some c → ms ≤ c.utf8ByteSize →
        writeLog true true (fun _ => true) true lf ms mf now e fs
          = WriteResult.ok (appendTo (createIfAbsent fs lf) lf (serializeLine now e))
        ∧ appendTo (createIfAbsent fs lf) lf (serializeLine now e) lf
            = some (c ++ serializeLine now e)
        ∧ ms ≤ (c ++ serializeLine now e).utf8ByteSize) := by
  refine ⟨rfl, rfl, rfl, ?_⟩
  intro c hact hbig
  refine ⟨?_, ?_, ?_⟩
  · show WriteResult.ok (appendTo (createIfAbsent
        (rotateLogF (fun _ => true) true lf ms mf fs) lf) lf (serializeLine now e)) = _
    rw [rotateLogF_allFail]
  · show (if lf = lf then some ((createIfAbsent fs lf lf).getD "" ++ serializeLine now e)
        else createIfAbsent fs lf lf) = _
    rw [if_pos rfl]
    show some (((if lf = lf then some ((fs lf).getD "") else fs lf)).getD "" ++ serializeLine now e) = _
    rw [if_pos rfl, hact]
    rfl
  · rw [utf8ByteSize_append]
    omega

/-- Witness for C4's amended claim: with every rename failing, the oversized
    active file grows past the threshold by exactly one appended record. -/
theorem writeLog_error_policy_witness :
    appendTo (createIfAbsent (fun p =>
        if p = "app.log" then some (String.mk (List.replicate 100 'a')) else none) "app.log")
      "app.log" (serializeLine "T" {}) "app.log"
      = some (String.mk (List.replicate 100 'a') ++ serializeLine "T" {})
    ∧ 100 ≤ (String.mk (List.replicate 100 'a') ++ serializeLine "T" {}).utf8ByteSize := by
  have h := writeLog_error_policy (fun _ => true) true "app.log" 100 5 "T" {} (fun p =>
      if p = "app.log" then some (String.mk (List.replicate 100 'a')) else none)
  rcases h.2.2.2 (String.mk (List.replicate 100 'a')) (by decide) (by decide) with ⟨_, h2, h3⟩
  exact ⟨h2, h3⟩

theorem digitChar_ne_newline : ∀ d, d < 16 → digitChar d ≠ '\n' := by decide

theorem escChar_ne_newline (c : Char) : ∀ x ∈ escChar c, x ≠ '\n' := by
  intro x hx
  unfold escChar at hx
  by_cases h1 : c = '"'
  · rw [if_pos h1] at hx
    simp only [List.mem_cons, List.not_mem_nil, or_false] at hx
    rcases hx with h | h <;> subst h <;> decide
  rw [if_neg h1] at hx
  by_cases h2 : c = '\\'
  · rw [if_pos h2] at hx
    simp only [List.mem_cons, List.not_mem_nil, or_false] at hx
    rcases hx with h | h <;> subst h <;> decide
  rw [if_neg h2] at hx
  by_cases h3 : c = '\n'
  · rw [if_pos h3] at hx
    simp only [List.mem_cons, List.not_mem_nil, or_false] at hx
    rcases hx with h | h <;> subst h <;> decide
  rw [if_neg h3] at hx
  by_cases h4 : c = '\r'
  · rw [if_pos h4] at hx
    simp only [List.mem_cons, List.not_mem_nil, or_false] at hx
    rcases hx with h | h <;> subst h <;> decide
  rw [if_neg h4] at hx
  by_cases h5 : c = '\t'
  · rw [if_pos h5] at hx
    simp only [List.mem_cons, List.not_mem_nil, or_false] at hx
    rcases hx with h | h <;> subst h <;> decide
  rw [if_neg h5] at hx
  by_cases h6 : c.toNat < 32 ∨ c = '<' ∨ c = '>' ∨ c = '&'
  · rw [if_pos h6] at hx
    have hbound : c.toNat < 64 := by
      rcases h6 with h | h | h | h
      · omega
      · subst h; decide
      · subst h; decide
      · subst h; decide
    simp only [List.mem_cons, List.not_mem_nil, or_false] at hx
    rcases hx with h | h | h | h | h | h <;> subst h
    · decide
    · decide
    · decide
    · decide
    · exact digitChar_ne_newline _ (by omega)
    · exact digitChar_ne_newline _ (by omega)
  rw [if_neg h6] at hx
  by_cases h7 : c.toNat = 8232 ∨ c.toNat = 8233
  · rw [if_pos h7] at hx
    simp only [List.mem_cons, List.not_mem_nil, or_false] at hx
    rcases hx with h | h | h | h | h | h <;> subst h
    · decide
    · decide
    · decide
    · decide
    · decide
    · exact digitChar_ne_newline _ (by omega)
  · rw [if_neg h7] at hx
    simp only [List.mem_singleton] at hx
    subst hx
    exact h3

theorem escapeString_no_newline (s : String) : '\n' ∉ (escapeString s).data := by
  intro h
  rw [show (escapeString s).data = s.data.flatMap escChar from rfl] at h
  rcases List.mem_flatMap.mp h with ⟨c, _, hx⟩
  exact escChar_ne_newline c '\n' hx rfl

theorem quoteStr_no_newline (s : String) : '\n' ∉ (quoteStr s).data := by
  unfold quoteStr
  intro h
  rw [String.data_append, String.data_append] at h
  rcases List.mem_append.mp h with h1 | h1
  · rcases List.mem_append.mp h1 with h2 | h2
    · exact absurd h2 (by decide)
    · exact escapeString_no_newline s h2
  · exact absurd h1 (by decide)

theorem decRepr_no_newline (n : Nat) : '\n' ∉ (decRepr n).data := by
  unfold decRepr
  by_cases h : n = 0
  · rw [if_pos h]; decide
  · rw [if_neg h]
    intro hx
    rw [show (String.mk ((decDigits n).reverse.map digitChar)).data
        = (decDigits n).reverse.map digitChar from rfl] at hx
    rcases List.mem_map.mp hx with ⟨d, hd, hdc⟩
    have hd10 : d < 10 := decDigits_lt n d (List.mem_reverse.mp hd)
    exact digitChar_ne_newline d (by omega) hdc

theorem intRepr_no_newline (i : Int) : '\n' ∉ (intRepr i).data := by
  unfold intRepr
  by_cases h : i < 0
  · rw [if_pos h]
    intro hx
    rw [String.data_append] at hx
    rcases List.mem_append.mp hx with h1 | h1
    · exact absurd h1 (by decide)
    · exact decRepr_no_newline _ h1
  · rw [if_neg h]
    exact decRepr_no_newline _

theorem renderField_no_newline {kv : String × String}
    (hk : '\n' ∉ kv.1.data) (hv : '\n' ∉ kv.2.data) :
    '\n' ∉ (renderField kv).data := by
  unfold renderField
  intro h
  rw [String.data_append, String.data_append, String.data_append] at h
  simp only [List.mem_append] at h
  rcases h with ((h | h) | h) | h
  · exact absurd h (by decide)
  · exact hk h
  · exact absurd h (by decide)
  · exact hv h

theorem emittedFields_shape (e : LogEntry) :
    ∀ kv ∈ emittedFields e,
      kv = ("timestamp", quoteStr e.timestamp) ∨ kv = ("level", quoteStr e.level)
      ∨ kv = ("service", quoteStr e.service) ∨ kv = ("message", quoteStr e.message)
      ∨ kv = ("user_id", quoteStr e.user_id) ∨ kv = ("endpoint", quoteStr e.endpoint)
      ∨ kv = ("response_time_ms", intRepr e.response_time_ms)
      ∨ kv = ("status_code", intRepr e.status_code)
      ∨ kv = ("region", quoteStr e.region) ∨ kv = ("component", quoteStr e.component) := by
  intro kv hkv
  unfold emittedFields at hkv
  simp only [List.mem_append] at hkv
  rcases hkv with ((((((h | h) | h) | h) | h) | h) | h)
  · simp only [List.mem_cons, List.not_mem_nil, or_false] at h
    tauto
  · split at h
    · cases h
    · simp only [List.mem_singleton] at h; tauto
  · split at h
    · cases h
    · simp only [List.mem_singleton] at h; tauto
  · split at h
    · cases h
    · simp only [List.mem_singleton] at h; tauto
  · split at h
    · cases h
    · simp only [List.mem_singleton] at h; tauto
  · split at h
    · cases h
    · simp only [List.mem_singleton] at h; tauto
  · split at h
    · cases h
    · simp only [List.mem_singleton] at h; tauto

theorem joinComma_no_newline : ∀ l : List String,
    (∀ x ∈ l, '\n' ∉ x.data) → '\n' ∉ (joinComma l).data := by
  intro l
  induction l with
  | nil => intro _; decide
  | cons x xs ih =>
    intro h
    cases xs with
    | nil => exact h x (by simp)
    | cons y ys =>
      intro hx
      rw [joinComma, String.data_append, String.data_append] at hx
      rcases List.mem_append.mp hx with h1 | h1
      · rcases List.mem_append.mp h1 with h2 | h2
        · exact h x (by simp) h2
        · exact absurd h2 (by decide)
      · exact ih (fun z hz => h z (by simp [hz])) h1

theorem marshalLogEntry_no_newline (e : LogEntry) : '\n' ∉ (marshalLogEntry e).data := by
  unfold marshalLogEntry
  intro h
  rw [String.data_append, String.data_append] at h
  rcases List.mem_append.mp h with h1 | h1
  · rcases List.mem_append.mp h1 with h2 | h2
    · exact absurd h2 (by decide)
    · refine joinComma_no_newline _ ?_ h2
      intro x hxm
      rcases List.mem_map.mp hxm with ⟨kv, hkv, hr⟩
      rcases emittedFields_shape e kv hkv with
        h' | h' | h' | h' | h' | h' | h' | h' | h' | h' <;> subst h' <;> rw [← hr]
      · exact renderField_no_newline
          (show Char.ofNat 10 ∉ ("timestamp" : String).data from by decide) (quoteStr_no_newline _)
      · exact renderField_no_newline
          (show Char.ofNat 10 ∉ ("level" : String).data from by decide) (quoteStr_no_newline _)
      · exact renderField_no_newline
          (show Char.ofNat 10 ∉ ("service" : String).data from by decide) (quoteStr_no_newline _)
      · exact renderField_no_newline
          (show Char.ofNat 10 ∉ ("message" : String).data from by decide) (quoteStr_no_newline _)
      · exact renderField_no_newline
          (show Char.ofNat 10 ∉ ("user_id" : String).data from by decide) (quoteStr_no_newline _)
      · exact renderField_no_newline
          (show Char.ofNat 10 ∉ ("endpoint" : String).data from by decide) (quoteStr_no_newline _)
      · exact renderField_no_newline
          (show Char.ofNat 10 ∉ ("response_time_ms" : String).data from by decide) (intRepr_no_newline _)
      · exact renderField_no_newline
          (show Char.ofNat 10 ∉ ("status_code" : String).data from by decide) (intRepr_no_newline _)
      · exact renderField_no_newline
          (show Char.ofNat 10 ∉ ("region" : String).data from by decide) (quoteStr_no_newline _)
      · exact renderField_no_newline
          (show Char.ofNat 10 ∉ ("component" : String).data from by decide) (quoteStr_no_newline _)
  · exact absurd h1 (by decide)

theorem emittedFields_keys (e : LogEntry) :
    (emittedFields e).map Prod.fst
      = ["timestamp", "level", "service", "message"]
        ++ (if e.user_id = "" then [] else ["user_id"])
        ++ (if e.endpoint = "" then [] else ["endpoint"])
        ++ (if e.response_time_ms = 0 then [] else ["response_time_ms"])
        ++ (if e.status_code = 0 then [] else ["status_code"])
        ++ (if e.region = "" then [] else ["region"])
        ++ (if e.component = "" then [] else ["component"]) := by
  unfold emittedFields
  simp only [List.map_append, List.map_cons, List.map_nil,
    apply_ite (List.map (Prod.fst : String × String → String))]

theorem emittedFields_key_mem (e : LogEntry) :
    ∀ key ∈ (emittedFields e).map Prod.fst,
      key = "timestamp" ∨ key = "level" ∨ key = "service" ∨ key = "message"
      ∨ (key = "user_id" ∧ e.user_id ≠ "") ∨ (key = "endpoint" ∧ e.endpoint ≠ "")
      ∨ (key = "response_time_ms" ∧ e.response_time_ms ≠ 0)
      ∨ (key = "status_code" ∧ e.status_code ≠ 0)
      ∨ (key = "region" ∧ e.region ≠ "") ∨ (key = "component" ∧ e.component ≠ "") := by
  intro key hkey
  rw [emittedFields_keys] at hkey
  simp only [List.mem_append, List.mem_cons, List.not_mem_nil, or_false] at hkey
  rcases hkey with ((((((h | h) | h) | h) | h) | h) | h)
  · tauto
  · by_cases hb : e.user_id = ""
    · rw [if_pos hb] at h; exact absurd h (List.not_mem_nil key)
    · rw [if_neg hb] at h; simp only [List.mem_singleton] at h; tauto
  · by_cases hb : e.endpoint = ""
    · rw [if_pos hb] at h; exact absurd h (List.not_mem_nil key)
    · rw [if_neg hb] at h; simp only [List.mem_singleton] at h; tauto
  · by_cases hb : e.response_time_ms = 0
    · rw [if_pos hb] at h; exact absurd h (List.not_mem_nil key)
    · rw [if_neg hb] at h; simp only [List.mem_singleton] at h; tauto
  · by_cases hb : e.status_code = 0
    · rw [if_pos hb] at h; exact absurd h (List.not_mem_nil key)
    · rw [if_neg hb] at h; simp only [List.mem_singleton] at h; tauto
  · by_cases hb : e.region = ""
    · rw [if_pos hb] at h; exact absurd h (List.not_mem_nil key)
    · rw [if_neg hb] at h; simp only [List.mem_singleton] at h; tauto
  · by_cases hb : e.component = ""
    · rw [if_pos hb] at h; exact absurd h (List.not_mem_nil key)
    · rw [if_neg hb] at h; simp only [List.mem_singleton] at h; tauto

/-- C5: each write appends the marshalled object followed by one newline;
    the object contains no newline, so the output is exactly one line per
    record; its members are the four mandatory fields in order followed by
    exactly the optional fields that are set; and an unset optional field's
    key does not occur among the emitted keys at all. -/
theorem serialization_spec (now : String) (e : LogEntry) :
    (serializeLine now e).data
      = (marshalLogEntry { e with timestamp := now }).data ++ ['\n']
    ∧ '\n' ∉ (marshalLogEntry { e with timestamp := now }).data
    ∧ (emittedFields { e with timestamp := now }).map Prod.fst
      = ["timestamp", "level", "service", "message"]
        ++ (if e.user_id = "" then [] else ["user_id"])
        ++ (if e.endpoint = "" then [] else ["endpoint"])
        ++ (if e.response_time_ms = 0 then [] else ["response_time_ms"])
        ++ (if e.status_code = 0 then [] else ["status_code"])
        ++ (if e.region = "" then [] else ["region"])
        ++ (if e.component = "" then [] else ["component"])
    ∧ (e.user_id = "" → "user_id" ∉ (emittedFields { e with timestamp := now }).map Prod.fst)
    ∧ (e.endpoint = "" → "endpoint" ∉ (emittedFields { e with timestamp := now }).map Prod.fst)
    ∧ (e.response_time_ms = 0 →
        "response_time_ms" ∉ (emittedFields { e with timestamp := now }).map Prod.fst)
    ∧ (e.status_code = 0 →
        "status_code" ∉ (emittedFields { e with timestamp := now }).map Prod.fst)
    ∧ (e.region = "" → "region" ∉ (emittedFields { e with timestamp := now }).map Prod.fst)
    ∧ (e.component = "" →
        "component" ∉ (emittedFields { e with timestamp := now }).map Prod.fst) := by
  refine ⟨?_, marshalLogEntry_no_newline _, emittedFields_keys _, ?_, ?_, ?_, ?_, ?_, ?_⟩
  · unfold serializeLine
    rw [String.data_append]
  · intro h hmem
    rcases emittedFields_key_mem _ "user_id" hmem with
      h' | h' | h' | h' | ⟨_, hne⟩ | ⟨h', _⟩ | ⟨h', _⟩ | ⟨h', _⟩ | ⟨h', _⟩ | ⟨h', _⟩ <;>
      first | exact absurd h' (by decide) | exact hne h
  · intro h hmem
    rcases emittedFields_key_mem _ "endpoint" hmem with
      h' | h' | h' | h' | ⟨h', _⟩ | ⟨_, hne⟩ | ⟨h', _⟩ | ⟨h', _⟩ | ⟨h', _⟩ | ⟨h', _⟩ <;>
      first | exact absurd h' (by decide) | exact hne h
  · intro h hmem
    rcases emittedFields_key_mem _ "response_time_ms" hmem with
      h' | h' | h' | h' | ⟨h', _⟩ | ⟨h', _⟩ | ⟨_, hne⟩ | ⟨h', _⟩ | ⟨h', _⟩ | ⟨h', _⟩ <;>
      first | exact absurd h' (by decide) | exact hne h
  · intro h hmem
    rcases emittedFields_key_mem _ "status_code" hmem with
      h' | h' | h' | h' | ⟨h', _⟩ | ⟨h', _⟩ | ⟨h', _⟩ | ⟨_, hne⟩ | ⟨h', _⟩ | ⟨h', _⟩ <;>
      first | exact absurd h' (by decide) | exact hne h
  · intro h hmem
    rcases emittedFields_key_mem _ "region" hmem with
      h' | h' | h' | h' | ⟨h', _⟩ | ⟨h', _⟩ | ⟨h', _⟩ | ⟨h', _⟩ | ⟨_, hne⟩ | ⟨h', _⟩ <;>
      first | exact absurd h' (by decide) | exact hne h
  · intro h hmem
    rcases emittedFields_key_mem _ "component" hmem with
      h' | h' | h' | h' | ⟨h', _⟩ | ⟨h', _⟩ | ⟨h', _⟩ | ⟨h', _⟩ | ⟨h', _⟩ | ⟨_, hne⟩ <;>
      first | exact absurd h' (by decide) | exact hne h

/-- Witness for C5 on a record with every optional field unset: the key of
    an unset optional field is not among the emitted keys. -/
theorem serialization_spec_witness :
    "user_id" ∉ (emittedFields { ({} : LogEntry) with timestamp := "T" }).map Prod.fst
    ∧ '\n' ∉ (marshalLogEntry { ({} : LogEntry) with timestamp := "T" }).data := by
  have h := serialization_spec "T" ({} : LogEntry)
  exact ⟨h.2.2.2.1 rfl, h.2.1⟩

/-- C6: the timestamp of the emitted line is assigned inside the write call:
    whatever timestamp the record carries, the write produces the same
    filesystem and the same serialized line as for the same record with any
    other carried timestamp, and the first emitted member is the timestamp
    read during the write. -/
theorem timestamp_set_at_write (lf : String) (ms : Nat) (mf : Int) (now t : String)
    (e : LogEntry) (fs : FS) :
    writeLogFS lf ms mf now { e with timestamp := t } fs = writeLogFS lf ms mf now e fs
    ∧ serializeLine now { e with timestamp := t } = serializeLine now e
    ∧ (emittedFields { e with timestamp := now }).head?
        = some ("timestamp", quoteStr now) := by
  exact ⟨rfl, rfl, rfl⟩

theorem users_ne_empty : ∀ i : Fin 5, users.getD i.val "" ≠ "" := by decide

theorem endpoints_ne_empty : ∀ i : Fin 5, endpoints.getD i.val "" ≠ "" := by decide

theorem regions_ne_empty : ∀ i : Fin 4, regions.getD i.val "" ≠ "" := by decide

theorem components_msg_ne : ∀ i : Fin 5,
    components.getD i.val "" ++ " operating normally" ≠ "API request processed" := by decide

theorem components_bne_empty : ∀ i : Fin 5, (components.getD i.val "" != "") = true := by decide

theorem statusCodes_mem : ∀ i : Fin 6, statusCodes.getD i.val 0 ∈ statusCodes := by decide

theorem apiEntry_api_true (ch : GenChoices) :
    ((apiEntry ch).level == "INFO" && (apiEntry ch).message == "API request processed") = true := rfl

theorem debugEntry_api_false (ch : GenChoices) :
    ((debugEntry ch).level == "INFO" && (debugEntry ch).message == "API request processed")
      = false := rfl

theorem healthEntry_not_api (ch : GenChoices) :
    ((healthEntry ch).level == "INFO" && (healthEntry ch).message == "API request processed")
      = false := by
  unfold healthEntry
  split
  · rfl
  · split
    · rfl
    · show (("INFO" == "INFO")
        && ((components.getD ch.componentIdx.val "" ++ " operating normally")
            == "API request processed")) = false
      rw [show (("INFO" : String) == "INFO") = true from rfl, Bool.true_and]
      exact beq_eq_false_iff_ne.mpr (components_msg_ne ch.componentIdx)

theorem healthEntry_not_api_prop (ch : GenChoices) :
    ¬((healthEntry ch).level = "INFO" ∧ (healthEntry ch).message = "API request processed") := by
  unfold healthEntry
  split
  · intro h
    exact absurd (show ("ERROR" : String) = "INFO" from h.1) (by decide)
  · split
    · intro h
      exact absurd (show ("WARN" : String) = "INFO" from h.1) (by decide)
    · intro h
      exact absurd h.2 (components_msg_ne ch.componentIdx)

theorem healthEntry_level_cases (ch : GenChoices) :
    (healthEntry ch).level = "ERROR" ∨ (healthEntry ch).level = "WARN"
    ∨ (healthEntry ch).level = "INFO" := by
  unfold healthEntry
  split
  · exact Or.inl rfl
  · split
    · exact Or.inr (Or.inl rfl)
    · exact Or.inr (Or.inr rfl)

theorem apiEntry_comp_false (ch : GenChoices) : ((apiEntry ch).component != "") = false := rfl

theorem debugEntry_comp_false (ch : GenChoices) : ((debugEntry ch).component != "") = false := rfl

theorem healthEntry_comp_true (ch : GenChoices) : ((healthEntry ch).component != "") = true := by
  unfold healthEntry
  split
  · exact components_bne_empty ch.componentIdx
  · split
    · exact components_bne_empty ch.componentIdx
    · exact components_bne_empty ch.componentIdx

theorem apiEntry_debug_false (ch : GenChoices) : ((apiEntry ch).level == "DEBUG") = false := rfl

theorem debugEntry_debug_true (ch : GenChoices) : ((debugEntry ch).level == "DEBUG") = true := rfl

theorem healthEntry_debug_false (ch : GenChoices) :
    ((healthEntry ch).level == "DEBUG") = false := by
  unfold healthEntry
  split
  · rfl
  · split
    · rfl
    · rfl

/-- C9: every tick writes two or three records (so at least 2 and at most 4):
    exactly one record with level INFO and the API message, which carries
    user, endpoint, a response time in [50, 549], a status code from the
    pool and a region; exactly one component-health record (the one with the
    component field set), whose level is ERROR, WARN or INFO; and at most
    one DEBUG record. -/
theorem generateLogs_shape (ch : GenChoices) :
    (2 ≤ (generateLogs ch).length ∧ (generateLogs ch).length ≤ 4)
    ∧ (generateLogs ch).countP
        (fun e => e.level == "INFO" && e.message == "API request processed") = 1
    ∧ (∀ e ∈ generateLogs ch, e.level = "INFO" → e.message = "API request processed" →
        e.user_id ≠ "" ∧ e.endpoint ≠ ""
        ∧ 50 ≤ e.response_time_ms ∧ e.response_time_ms ≤ 549
        ∧ e.status_code ∈ statusCodes ∧ e.region ≠ "")
    ∧ (generateLogs ch).countP (fun e => e.component != "") = 1
    ∧ (∀ e ∈ generateLogs ch, e.component ≠ "" →
        e.level = "ERROR" ∨ e.level = "WARN" ∨ e.level = "INFO")
    ∧ (generateLogs ch).countP (fun e => e.level == "DEBUG") ≤ 1 := by
  refine ⟨?_, ?_, ?_, ?_, ?_, ?_⟩
  · unfold generateLogs
    cases hdr : ch.debugRoll <;> simp
  · unfold generateLogs
    cases hdr : ch.debugRoll <;>
      simp [List.countP_append, List.countP_cons, List.countP_nil,
        healthEntry_not_api, apiEntry_api_true, debugEntry_api_false]
  · intro e hmem hlvl hmsg
    unfold generateLogs at hmem
    rcases List.mem_append.mp hmem with h2 | h2
    · simp only [List.mem_cons, List.not_mem_nil, or_false] at h2
      rcases h2 with rfl | rfl
      · refine ⟨users_ne_empty ch.userIdx, endpoints_ne_empty ch.endpointIdx, ?_, ?_,
          statusCodes_mem ch.statusIdx, regions_ne_empty ch.regionA⟩
        · show (50 : Int) ≤ (ch.respBase.val : Int) + 50
          omega
        · show ((ch.respBase.val : Int) + 50) ≤ 549
          have := ch.respBase.isLt
          omega
      · exact absurd ⟨hlvl, hmsg⟩ (healthEntry_not_api_prop ch)
    · split at h2
      · simp only [List.mem_singleton] at h2
        subst h2
        exact absurd (show ("DEBUG" : String) = "INFO" from hlvl) (by decide)
      · exact absurd h2 (List.not_mem_nil e)
  · unfold generateLogs
    cases hdr : ch.debugRoll <;>
      simp [List.countP_append, List.countP_cons, List.countP_nil,
        apiEntry_comp_false, healthEntry_comp_true, debugEntry_comp_false]
  · intro e hmem hcomp
    unfold generateLogs at hmem
    rcases List.mem_append.mp hmem with h2 | h2
    · simp only [List.mem_cons, List.not_mem_nil, or_false] at h2
      rcases h2 with rfl | rfl
      · exact absurd rfl hcomp
      · exact healthEntry_level_cases ch
    · split at h2
      · simp only [List.mem_singleton] at h2
        subst h2
        exact absurd rfl hcomp
      · exact absurd h2 (List.not_mem_nil e)
  · unfold generateLogs
    cases hdr : ch.debugRoll <;>
      simp [List.countP_append, List.countP_cons, List.countP_nil,
        apiEntry_debug_false, healthEntry_debug_false, debugEntry_debug_true]

/-- Witness for C9 at a fixed draw: the API entry of the tick satisfies the
    field constraints. -/
theorem generateLogs_shape_witness :
    50 ≤ (apiEntry {
      userIdx := 0, endpointIdx := 0, respBase := 0, statusIdx := 0, regionA := 0,
      componentIdx := 0, serviceIdx := 0, errRoll := false, warnRoll := false,
      regionB := 0, debugRoll := true, debugBase := 0, regionC := 0 }).response_time_ms
    ∧ (apiEntry {
      userIdx := 0, endpointIdx := 0, respBase := 0, statusIdx := 0, regionA := 0,
      componentIdx := 0, serviceIdx := 0, errRoll := false, warnRoll := false,
      regionB := 0, debugRoll := true, debugBase := 0, regionC := 0 }).status_code
      ∈ statusCodes := by
  have h := generateLogs_shape {
      userIdx := 0, endpointIdx := 0, respBase := 0, statusIdx := 0, regionA := 0,
      componentIdx := 0, serviceIdx := 0, errRoll := false, warnRoll := false,
      regionB := 0, debugRoll := true, debugBase := 0, regionC := 0 }
  have h3 := h.2.2.1 (apiEntry {
      userIdx := 0, endpointIdx := 0, respBase := 0, statusIdx := 0, regionA := 0,
      componentIdx := 0, serviceIdx := 0, errRoll := false, warnRoll := false,
      regionB := 0, debugRoll := true, debugBase := 0, regionC := 0 })
    (by simp [generateLogs]) rfl rfl
  exact ⟨h3.2.2.1, h3.2.2.2.2.1⟩
